import Mathlib

/-!
Shallow embedding of the `aive` video-editing domain model
(`src/aive/core/clips.py`, `track.py`, `timeline.py`,
`src/templates/placeholder.py`, `src/pipeline/render_queue.py`).

Conventions of the embedding:
* Python `float` time values are modelled as `ℚ` (the claims only use
  addition, comparison, `max` and averaging, never rounding).
* Python code that can raise is modelled with `Option`/`Except`:
  a `none`/`.error` result corresponds to an uncaught exception.
* Mutable objects are modelled by explicit state passing: a method that
  mutates `self` returns the updated value.
-/

namespace Aive

/-- Python list semantics for `xs.insert(i, x)`: a negative index counts
from the end (clamped at 0), an index past the end appends. -/
def pyInsert {α : Type} (xs : List α) (i : Int) (x : α) : List α :=
  let k : Nat := if i < 0 then (max 0 ((xs.length : Int) + i)).toNat
                 else min i.toNat xs.length
  xs.take k ++ x :: xs.drop k

/-- Python's built-in binary `max` on floats (`b` wins exactly when it is
strictly greater), written with the kernel-computable comparison `Rat.blt`
(`pyMax_eq_max` below shows it is the lattice `max`). -/
def pyMax (a b : ℚ) : ℚ := if Rat.blt a b then b else a

/-- Python list semantics for `xs.pop(i)` with `0 <= i < len(xs)` (the
callers in the source guard the bounds). -/
def pyPopAt {α : Type} (xs : List α) (n : Nat) : List α :=
  xs.take n ++ xs.drop (n + 1)

/-- `Color` dataclass from `clips.py` (r, g, b, a). -/
structure Color where
  r : Int
  g : Int
  b : Int
  a : Int := 255
deriving DecidableEq, Repr

/-- `Position` dataclass from `clips.py`. -/
structure Position where
  x : ℚ
  y : ℚ
deriving DecidableEq, Repr

/-- The four concrete `Clip` subclasses of `clips.py`. -/
inductive ClipKind
  | video
  | audio
  | image
  | textKind
deriving DecidableEq, Repr

/-- A clip (`clips.py`): the `Clip` base-class fields shared by the claims
(`start_time`, `duration`, `name`) plus the per-variant payload fields the
claims inspect (`source_path` for video/audio/image, `textContent` for
text).  `duration` is `none` when the Python attribute is `None`. -/
structure Clip where
  kind : ClipKind
  start_time : ℚ := 0
  duration : Option ℚ := none
  name : Option String := none
  source_path : Option String := none
  textContent : Option String := none
  font_size : Int := 24
  font_family : String := "Arial"
  color : Color := ⟨255, 255, 255, 255⟩
  position : Position := ⟨0, 0⟩
  scale : ℚ := 1
  volume : ℚ := 1
deriving DecidableEq, Repr

/-- `Clip.end_time`: `start_time + duration`; raises (`none`) when
`duration` is absent. -/
def Clip.end_time (c : Clip) : Option ℚ :=
  c.duration.map (fun d => c.start_time + d)

/-- `TrackType` enum from `track.py`. -/
inductive TrackType
  | video
  | audio
  | textTrack
  | composite
deriving DecidableEq, Repr

/-- The transition variants of `transitions.py`; the claims never inspect
their parameters beyond identity, so only kind and duration are kept. -/
inductive TransitionKind
  | crossfade
  | wipe
  | fade
  | slide
deriving DecidableEq, Repr

/-- A transition (`transitions.py`). -/
structure Transition where
  kind : TransitionKind
  duration : ℚ
  name : Option String := none
deriving DecidableEq, Repr

/-- `Track` from `track.py`: ordered clips plus the `_transitions` dict
keyed by clip index (kept as an association list with unique keys, in
insertion order, exactly as a Python `dict`). -/
structure Track where
  track_type : TrackType := TrackType.composite
  name : Option String := none
  enabled : Bool := true
  clips : List Clip := []
  transitions : List (Int × Transition) := []
  opacity : ℚ := 1
  muted : Bool := false
  locked : Bool := false
deriving DecidableEq, Repr

/-- Python `dict` assignment `d[k] = v`: replace the value if the key is
present, otherwise append the new entry. -/
def dictSet {κ β : Type} [DecidableEq κ] (m : List (κ × β)) (k : κ) (v : β) :
    List (κ × β) :=
  if m.any (fun p => p.1 = k) then
    m.map (fun p => if p.1 = k then (k, v) else p)
  else m ++ [(k, v)]

/-- Python `del d[k]` / key-absence tolerant removal from a dict. -/
def dictDel {κ β : Type} [DecidableEq κ] (m : List (κ × β)) (k : κ) :
    List (κ × β) :=
  m.filter (fun p => p.1 ≠ k)

/-- Python dict lookup `d.get(k)` / `d[k]` guarded by `k in d`. -/
def dictGet {κ β : Type} [DecidableEq κ] (m : List (κ × β)) (k : κ) : Option β :=
  match m with
  | [] => none
  | p :: rest => if p.1 = k then some p.2 else dictGet rest k

/-- The `.value` of the `TrackType` enum member. -/
def TrackType.value : TrackType → String
  | TrackType.video => "video"
  | TrackType.audio => "audio"
  | TrackType.textTrack => "text"
  | TrackType.composite => "composite"

/-- `type(clip).__name__` for each clip variant. -/
def ClipKind.className : ClipKind → String
  | ClipKind.video => "VideoClip"
  | ClipKind.audio => "AudioClip"
  | ClipKind.image => "ImageClip"
  | ClipKind.textKind => "TextClip"

/-- The `valid_types` dict of `_validate_clip_type`: allowed clip variants
per track type (`none` when the track type has no entry). -/
def valid_types : TrackType → Option (List ClipKind)
  | TrackType.video => some [ClipKind.video, ClipKind.image]
  | TrackType.audio => some [ClipKind.audio]
  | TrackType.textTrack => some [ClipKind.textKind]
  | TrackType.composite => none

/-- `Track._validate_clip_type`: composite tracks accept every clip type;
otherwise, when the track type has a `valid_types` entry, the clip must be
an instance of one of the allowed variants or a `ValueError` is raised. -/
def Track.validate_clip_type (t : Track) (c : Clip) : Except String Unit :=
  if t.track_type = TrackType.composite then Except.ok ()
  else
    match valid_types t.track_type with
    | some allowed_types =>
        if allowed_types.contains c.kind then Except.ok ()
        else Except.error ("Track type " ++ t.track_type.value ++
               " cannot contain " ++ c.kind.className)
    | none => Except.ok ()

/-- `Track.add_clip`: validates the clip type, then appends
(`index = None`) or inserts at `index` with Python list semantics. -/
def Track.add_clip (t : Track) (c : Clip) (index : Option Int := none) :
    Except String Track :=
  match t.validate_clip_type c with
  | Except.error e => Except.error e
  | Except.ok _ =>
      match index with
      | none => Except.ok { t with clips := t.clips ++ [c] }
      | some i => Except.ok { t with clips := pyInsert t.clips i c }

/-- `Track.remove_clip` (index overload): when `0 <= clip < len(clips)`,
deletes the transition keyed at that index (if any) and pops the clip;
out-of-range indexes are ignored. -/
def Track.remove_clip (t : Track) (i : Int) : Track :=
  if 0 ≤ i ∧ i < (t.clips.length : Int) then
    { t with transitions := dictDel t.transitions i,
             clips := pyPopAt t.clips i.toNat }
  else t

/-- `Track.get_clip`: returns the clip when `0 <= index < len(clips)`,
`None` otherwise (total, never raises). -/
def Track.get_clip (t : Track) (index : Int) : Option Clip :=
  if 0 ≤ index ∧ index < (t.clips.length : Int) then t.clips.get? index.toNat
  else none

/-- `Track.find_clips_at_time`: clips with a defined duration that satisfy
`start_time <= time < end_time`. -/
def Track.find_clips_at_time (t : Track) (time : ℚ) : List Clip :=
  t.clips.filter (fun c =>
    match c.duration with
    | none => false
    | some d => decide (c.start_time ≤ time) && decide (time < c.start_time + d))

/-- `Track.add_transition`: stores the transition under `clip_index` only
when `0 <= clip_index < len(clips) - 1` (no transition after the last
clip); otherwise a no-op. -/
def Track.add_transition (t : Track) (clip_index : Int) (tr : Transition) : Track :=
  if 0 ≤ clip_index ∧ clip_index < (t.clips.length : Int) - 1 then
    { t with transitions := dictSet t.transitions clip_index tr }
  else t

/-- `Track.remove_transition`: deletes the entry keyed at `clip_index` if
present. -/
def Track.remove_transition (t : Track) (clip_index : Int) : Track :=
  { t with transitions := dictDel t.transitions clip_index }

/-- `Track.duration`: 0.0 for an empty track, else
`max(clip.end_time for clip in clips if clip.duration is not None)`;
`none` models the `ValueError` that `max` raises on an empty sequence
(all clips lacking a duration). -/
def Track.duration (t : Track) : Option ℚ :=
  if t.clips.isEmpty then some 0
  else
    match t.clips.filterMap Clip.end_time with
    | [] => none
    | x :: xs => some (xs.foldl pyMax x)

/-- `Timeline` from `timeline.py`. -/
structure Timeline where
  width : Int := 1920
  height : Int := 1080
  framerate : ℚ := 30
  name : Option String := none
  tracks : List Track := []
deriving DecidableEq, Repr

/-- `Timeline.duration`: 0.0 when there are no tracks, else
`max(track.duration for track in tracks if track.enabled)`; `none` models
a `ValueError`, raised either by a track's own `duration` or by `max` on
an empty sequence (every track disabled). -/
def Timeline.duration (tl : Timeline) : Option ℚ :=
  if tl.tracks.isEmpty then some 0
  else
    match (tl.tracks.filter (fun t => t.enabled)).mapM Track.duration with
    | none => none
    | some ds =>
        match ds with
        | [] => none
        | x :: xs => some (xs.foldl pyMax x)

/-- `Timeline.get_track`: returns the track when `0 <= index < len(tracks)`,
`None` otherwise (total, never raises). -/
def Timeline.get_track (tl : Timeline) (index : Int) : Option Track :=
  if 0 ≤ index ∧ index < (tl.tracks.length : Int) then tl.tracks.get? index.toNat
  else none

/-! ### Template / placeholder system (`src/templates/placeholder.py`) -/

/-- A value in the `data` mapping handed to `fill`/`create_clip`: either a
plain string or a nested dict carrying the keys the placeholder code reads
(`path`, `file`, `duration`, `start_time`, `scale`, `text`, `font_size`,
`font_family`, `color`); an absent dict key is `none`.  The `color` entry
is kept as a well-formed `Color` (the source builds `Color(**color_data)`
from a mapping). -/
inductive DataValue
  | str (s : String)
  | dict (path file : Option String) (duration start_time scale : Option ℚ)
      (textVal : Option String) (font_size : Option Int)
      (font_family : Option String) (color : Option Color)
deriving DecidableEq, Repr

/-- Python `x or y` on two optional strings (`None` and `""` are falsy). -/
def pyOrStr (a b : Option String) : Option String :=
  match a with
  | some s => if s = "" then b else some s
  | none => b

/-- Python truthiness of an optional string. -/
def truthyStr : Option String → Bool
  | some s => s ≠ ""
  | none => false

/-- Python truthiness of an optional float (`None` and `0.0` are falsy). -/
def truthyQ : Option ℚ → Bool
  | some x => x ≠ 0
  | none => false

/-- Python truthiness of an optional int. -/
def truthyInt : Option Int → Bool
  | some x => x ≠ 0
  | none => false

/-- Python `str(x)` when `x` may be `None`. -/
def strOfOpt : Option String → String
  | some s => s
  | none => "None"

/-- Python `str(...)` of a data value; a dict renders as some opaque text
(never inspected by any claim). -/
def strOfData : DataValue → String
  | DataValue.str s => s
  | DataValue.dict _ _ _ _ _ _ _ _ _ => "<dict>"

/-- The four `Placeholder` subclasses, with the constructor-set attributes
each variant's `validate_data`/`create_clip` reads. -/
inductive Placeholder
  | video (key : String) (start_time : ℚ) (duration : Option ℚ) (scale : ℚ)
      (position : Position) (required_duration max_duration : Option ℚ)
      (allowed_formats : List String)
  | audio (key : String) (start_time : ℚ) (duration : Option ℚ) (volume : ℚ)
  | image (key : String) (duration : ℚ) (start_time : ℚ) (scale : ℚ)
      (position : Position)
  | textPh (key : String) (duration : ℚ) (start_time : ℚ) (font_size : Int)
      (font_family : String) (color : Color) (position : Position)
      (max_length : Option Int) (required : Bool)
deriving DecidableEq, Repr

/-- The placeholder's `key` attribute. -/
def Placeholder.key : Placeholder → String
  | Placeholder.video k _ _ _ _ _ _ _ => k
  | Placeholder.audio k _ _ _ => k
  | Placeholder.image k _ _ _ _ => k
  | Placeholder.textPh k _ _ _ _ _ _ _ _ => k

/-- `Placeholder.validate_data` per variant, side-effect free, returning
human-readable problems (empty list when valid).  The `and`-chained
constraint guards reproduce Python truthiness (`0.0`/`None` disable a
check). -/
def Placeholder.validate_data : Placeholder → List (String × DataValue) → List String
  | Placeholder.video key _ _ _ _ required_duration max_duration allowed_formats, data =>
      match dictGet data key with
      | none => ["Missing required placeholder: " ++ key]
      | some source =>
          let pd : Option String × Option ℚ :=
            match source with
            | DataValue.dict p f d _ _ _ _ _ _ => (pyOrStr p f, d)
            | DataValue.str s => (some s, none)
          let path := pd.1
          let duration := pd.2
          let pathErrors :=
            if truthyStr path then
              let path_str := (strOfOpt path).toLower
              if allowed_formats.any (fun fmt => path_str.endsWith fmt) then []
              else ["Invalid format for " ++ key ++ ". Allowed: " ++
                      String.intercalate ", " allowed_formats]
            else ["Missing path for placeholder: " ++ key]
          let reqErrors :=
            if truthyQ required_duration && decide (duration ≠ required_duration) then
              ["Video " ++ key ++ " must have duration " ++
                 toString (required_duration.getD 0) ++ "s"]
            else []
          let maxErrors :=
            if truthyQ max_duration && truthyQ duration &&
                decide (duration.getD 0 > max_duration.getD 0) then
              ["Video " ++ key ++ " duration exceeds maximum " ++
                 toString (max_duration.getD 0) ++ "s"]
            else []
          pathErrors ++ reqErrors ++ maxErrors
  | Placeholder.audio key _ _ _, data =>
      match dictGet data key with
      | none => ["Missing required placeholder: " ++ key]
      | some _ => []
  | Placeholder.image key _ _ _ _, data =>
      match dictGet data key with
      | none => ["Missing required placeholder: " ++ key]
      | some _ => []
  | Placeholder.textPh key _ _ _ _ _ _ max_length required, data =>
      match dictGet data key with
      | none => if required then ["Missing required placeholder: " ++ key] else []
      | some td =>
          let textStr :=
            match td with
            | DataValue.dict _ _ _ _ _ tv _ _ _ => tv.getD ""
            | DataValue.str s => s
          if truthyInt max_length && decide ((textStr.length : Int) > max_length.getD 0) then
            ["Text for " ++ key ++ " exceeds maximum length " ++
               toString (max_length.getD 0)]
          else []

/-- `Placeholder.create_clip` per variant; `.error` models the
`ValueError` raised on missing required data. -/
def Placeholder.create_clip : Placeholder → List (String × DataValue) → Except String Clip
  | Placeholder.video key start_time duration scale position _ _ _, data =>
      match dictGet data key with
      | none => Except.error ("Missing required placeholder data: " ++ key)
      | some source =>
          let parts : Option String × Option ℚ × ℚ × ℚ :=
            match source with
            | DataValue.dict p f d st sc _ _ _ _ =>
                (pyOrStr p f, d.orElse (fun _ => duration), st.getD start_time, sc.getD scale)
            | DataValue.str s => (some s, duration, start_time, scale)
          Except.ok { kind := ClipKind.video, start_time := parts.2.2.1,
                      duration := parts.2.1, name := some (key ++ "_video"),
                      source_path := some (strOfOpt parts.1),
                      scale := parts.2.2.2, position := position }
  | Placeholder.audio key start_time duration volume, data =>
      match dictGet data key with
      | none => Except.error ("Missing required placeholder data: " ++ key)
      | some source =>
          Except.ok { kind := ClipKind.audio, start_time := start_time,
                      duration := duration, name := some (key ++ "_audio"),
                      source_path := some (strOfData source), volume := volume }
  | Placeholder.image key duration start_time scale position, data =>
      match dictGet data key with
      | none => Except.error ("Missing required placeholder data: " ++ key)
      | some source =>
          Except.ok { kind := ClipKind.image, start_time := start_time,
                      duration := some duration, name := some (key ++ "_image"),
                      source_path := some (strOfData source),
                      scale := scale, position := position }
  | Placeholder.textPh key duration start_time font_size font_family color position _ required, data =>
      match dictGet data key with
      | none =>
          if required then Except.error ("Missing required placeholder data: " ++ key)
          else Except.ok { kind := ClipKind.textKind, start_time := start_time,
                           duration := some duration, name := some (key ++ "_text"),
                           textContent := some "", font_size := font_size,
                           font_family := font_family, color := color,
                           position := position }
      | some td =>
          let parts : String × Int × String × Color :=
            match td with
            | DataValue.dict _ _ _ _ _ tv fs ff col =>
                (tv.getD "", fs.getD font_size, ff.getD font_family, col.getD color)
            | DataValue.str s => (s, font_size, font_family, color)
          Except.ok { kind := ClipKind.textKind, start_time := start_time,
                      duration := some duration, name := some (key ++ "_text"),
                      textContent := some parts.1, font_size := parts.2.1,
                      font_family := parts.2.2.1, color := parts.2.2.2,
                      position := position }

/-- Python list assignment `xs[i] = x` (negative index counts from the
end; `.error` models the `IndexError` on an out-of-range index). -/
def pySetItem {α : Type} (xs : List α) (i : Int) (x : α) : Except String (List α) :=
  if 0 ≤ i ∧ i < (xs.length : Int) then Except.ok (xs.set i.toNat x)
  else if i < 0 ∧ 0 ≤ (xs.length : Int) + i then
    Except.ok (xs.set ((xs.length : Int) + i).toNat x)
  else Except.error "list assignment index out of range"

/-- `VideoTemplate`: base timeline, `key -> Placeholder` dict and
`key -> (track_index, clip_index)` position dict (both as insertion-ordered
association lists with unique keys, like Python dicts). -/
structure VideoTemplate where
  timeline : Timeline
  infoName : String := "Untitled Template"
  placeholders : List (String × Placeholder) := []
  placeholder_positions : List (String × (Int × Int)) := []
deriving Repr

/-- The replacement loop inside `VideoTemplate.fill`, iterating the
placeholder dict in insertion order over the (deep-copied) timeline:
slots without a recorded position are skipped, `create_clip` is invoked,
and the clip is assigned only when the bound track exists, is non-empty
(Python's `if track` truthiness goes through `Track.__len__`), and
`clip_index < len(track.clips)`. -/
def fillLoop (data : List (String × DataValue))
    (positions : List (String × (Int × Int))) :
    List (String × Placeholder) → Timeline → Except String Timeline
  | [], tl => Except.ok tl
  | (key, ph) :: rest, tl =>
      match dictGet positions key with
      | none => fillLoop data positions rest tl
      | some pos => do
          let actual_clip ← ph.create_clip data
          match tl.get_track pos.1 with
          | none => fillLoop data positions rest tl
          | some track =>
              if track.clips.length ≠ 0 ∧ pos.2 < (track.clips.length : Int) then do
                let newClips ← pySetItem track.clips pos.2 actual_clip
                fillLoop data positions rest
                  { tl with tracks := tl.tracks.set pos.1.toNat { track with clips := newClips } }
              else fillLoop data positions rest tl

/-- `VideoTemplate.fill`: collects every placeholder's validation errors;
when any exist, raises one aggregated `ValueError` (the base timeline is
untouched); otherwise deep-copies the base timeline (a value copy here)
and runs the replacement loop on the copy. -/
def VideoTemplate.fill (t : VideoTemplate) (data : List (String × DataValue)) :
    Except String Timeline :=
  let all_errors := (t.placeholders.map (fun p => p.2.validate_data data)).flatten
  if all_errors.isEmpty then
    fillLoop data t.placeholder_positions t.placeholders t.timeline
  else
    Except.error ("Template validation failed: " ++ String.intercalate "; " all_errors)

/-- `VideoTemplate.validate_data`: the collected errors of every
placeholder, without touching the timeline. -/
def VideoTemplate.validate_data (t : VideoTemplate)
    (data : List (String × DataValue)) : List String :=
  (t.placeholders.map (fun p => p.2.validate_data data)).flatten

/-- `VideoTemplate.create_simple_text_template`: a fresh timeline with one
(empty) composite track, and one required text placeholder registered via
`add_placeholder(ph, 0)` — whose `clip_index` defaults to
`len(track.clips)`, i.e. `0` on the empty track. -/
def VideoTemplate.create_simple_text_template (name : String)
    (text_key : String := "title") (duration : ℚ := 5) : VideoTemplate :=
  { timeline := { width := 1920, height := 1080, tracks := [{}] },
    infoName := name,
    placeholders := [(text_key,
      Placeholder.textPh text_key duration 0 48 "Arial" ⟨255, 255, 255, 255⟩
        ⟨480, 540⟩ none true)],
    placeholder_positions := [(text_key, (0, 0))] }

/-! ### Render queue (`src/pipeline/render_queue.py`)

The queue's only concurrency-free execution path is `QueueMode.SEQUENTIAL`
(`_run_sequential`), which the claims below are about.  The external
`Renderer` capability is opaque to the queue; a render call is modelled by
an injected `outcome : RenderJob -> Except String Unit` function
(`.error e` models `renderer.render` raising an exception whose
`str(...)` is `e`).  `datetime.now()` is modelled by a rational clock that
advances at every call. -/

/-- `JobStatus` enum. -/
inductive JobStatus
  | pending
  | running
  | completed
  | failed
  | cancelled
deriving DecidableEq, Repr

/-- `RenderJob` dataclass; `renderer` is an opaque capability handle. -/
structure RenderJob where
  id : String
  timeline : Timeline
  output_path : String
  renderer : Nat
  status : JobStatus := JobStatus.pending
  created_at : ℚ := 0
  started_at : Option ℚ := none
  completed_at : Option ℚ := none
  error_message : Option String := none
  progress : ℚ := 0
deriving DecidableEq, Repr

/-- `RenderJob.duration`: `(completed_at - started_at).total_seconds()`
when both timestamps are recorded, else `None` (datetime objects are
always truthy, so the guard is exactly both-present). -/
def RenderJob.duration (j : RenderJob) : Option ℚ :=
  match j.started_at, j.completed_at with
  | some s, some c => some (c - s)
  | _, _ => none

/-- `RenderJob.is_finished`: completed, failed or cancelled. -/
def RenderJob.is_finished (j : RenderJob) : Bool :=
  decide (j.status = JobStatus.completed ∨ j.status = JobStatus.failed ∨
    j.status = JobStatus.cancelled)

/-- `RenderQueue` state: `_jobs` dict, `_job_order` list, flags and the
default renderer handle. -/
structure RenderQueue where
  default_renderer : Option Nat := none
  jobs : List (String × RenderJob) := []
  job_order : List String := []
  running : Bool := false
  cancelled : Bool := false
deriving DecidableEq, Repr

/-- `RenderQueue.add_job`: resolves the renderer (explicit argument, else
the queue default, else a `ValueError`), picks the job id (caller-supplied,
else the freshly generated uuid passed in as `genId`), then performs
`self._jobs[job_id] = job` and `self._job_order.append(job_id)` — note the
dict assignment silently overwrites an existing entry while the order list
unconditionally appends. -/
def RenderQueue.add_job (q : RenderQueue) (timeline : Timeline)
    (output_path : String) (renderer : Option Nat := none)
    (job_id : Option String := none) (created_at : ℚ := 0)
    (genId : String := "uuid") : Except String (RenderQueue × String) :=
  let r := match renderer with
    | some r => some r
    | none => q.default_renderer
  match r with
  | none => Except.error "No renderer provided and no default renderer set"
  | some r =>
      let jid := match job_id with
        | some j => j
        | none => genId
      let job : RenderJob :=
        { id := jid, timeline := timeline, output_path := output_path,
          renderer := r, created_at := created_at }
      Except.ok ({ q with jobs := dictSet q.jobs jid job,
                          job_order := q.job_order ++ [jid] }, jid)

/-- `RenderQueue.remove_job`: when the id is present, deletes the map entry
and removes the first occurrence of the id from the order list (the
transient Running→Cancelled mark on the job object is unobservable once
the entry is deleted); returns whether a job existed. -/
def RenderQueue.remove_job (q : RenderQueue) (job_id : String) :
    RenderQueue × Bool :=
  match dictGet q.jobs job_id with
  | some _ =>
      ({ q with jobs := dictDel q.jobs job_id,
                job_order := q.job_order.erase job_id }, true)
  | none => (q, false)

/-- Queue statistics snapshot returned by `get_stats`. -/
structure QueueStats where
  total_jobs : Nat
  pending : Nat
  running : Nat
  completed : Nat
  failed : Nat
  cancelled : Nat
  queue_running : Bool
  avg_duration : Option ℚ
deriving DecidableEq, Repr

/-- `RenderQueue.get_stats`: per-status counts plus the average duration
over `[j for j in jobs if j.status == COMPLETED and j.duration]` — the
Python truthiness of `j.duration` (modelled by `truthyQ`) drops completed
jobs whose duration is `None` *or exactly zero* from the average. -/
def RenderQueue.get_stats (q : RenderQueue) : QueueStats :=
  let jobs := q.jobs.map (fun p => p.2)
  let completed_jobs := jobs.filter (fun j =>
    decide (j.status = JobStatus.completed) && truthyQ j.duration)
  { total_jobs := jobs.length,
    pending := jobs.countP (fun j => decide (j.status = JobStatus.pending)),
    running := jobs.countP (fun j => decide (j.status = JobStatus.running)),
    completed := jobs.countP (fun j => decide (j.status = JobStatus.completed)),
    failed := jobs.countP (fun j => decide (j.status = JobStatus.failed)),
    cancelled := jobs.countP (fun j => decide (j.status = JobStatus.cancelled)),
    queue_running := q.running,
    avg_duration :=
      if completed_jobs.isEmpty then none
      else some ((completed_jobs.map (fun j => j.duration.getD 0)).sum /
                   (completed_jobs.length : ℚ)) }

/-- The body of `RenderQueue._process_job` acting on one job: mark it
Running with `started_at`, perform the render call, then either the
Completed transition (`completed_at`, `progress = 100.0`) or — through the
`except` branch and `_handle_job_error` — the Failed transition
(`completed_at`, `error_message = str(e)`).  The function is total: the
renderer's exception is consumed here and never escapes. -/
def finishJob (outcome : RenderJob → Except String Unit) (clock : ℚ)
    (j : RenderJob) : RenderJob :=
  let j1 := { j with status := JobStatus.running, started_at := some clock }
  match outcome j1 with
  | Except.ok _ =>
      { j1 with status := JobStatus.completed, completed_at := some (clock + 1),
                progress := 100 }
  | Except.error e =>
      { j1 with status := JobStatus.failed, completed_at := some (clock + 1),
                error_message := some e }

/-- The loop body of `_get_next_pending_job`: probe one order-list id —
the job, if present in the map with Pending status. -/
def pendingProbe (jobs : List (String × RenderJob)) (id : String) :
    Option RenderJob :=
  match dictGet jobs id with
  | some j => if j.status = JobStatus.pending then some j else none
  | none => none

/-- `RenderQueue._get_next_pending_job`: scan `_job_order` in submission
order and return the first job present in the map with Pending status. -/
def RenderQueue.get_next_pending_job (q : RenderQueue) : Option RenderJob :=
  q.job_order.findSome? (pendingProbe q.jobs)

/-- `RenderQueue._process_job` as a queue-state transformer: the in-place
mutation of the shared job object becomes an update of the map entry at
the job's id. -/
def RenderQueue.process_job (q : RenderQueue)
    (outcome : RenderJob → Except String Unit) (clock : ℚ) (j : RenderJob) :
    RenderQueue :=
  { q with jobs := dictSet q.jobs j.id (finishJob outcome clock j) }

/-- `RenderQueue._run_sequential`'s `while` loop: at each iteration stop
if cancelled, pull the next pending job (stop when none), process it, and
record the renderer call in a trace (the renderer stub of the spec's
ordering property).  Each iteration moves one Pending job to a terminal
status and never creates Pending jobs, so the loop performs at most one
iteration per queued job; the explicit fuel passed by `run_sequential`
bounds it accordingly. -/
def runSequentialAux (outcome : RenderJob → Except String Unit) :
    Nat → ℚ → RenderQueue → List String → RenderQueue × List String
  | 0, _, q, trace => (q, trace)
  | fuel + 1, clock, q, trace =>
      if q.cancelled then (q, trace)
      else
        match q.get_next_pending_job with
        | none => (q, trace)
        | some j =>
            runSequentialAux outcome fuel (clock + 2)
              (q.process_job outcome clock j) (trace ++ [j.id])

/-- `RenderQueue.run(QueueMode.SEQUENTIAL)`: raises if already running,
sets the running flag and clears the cancelled flag, drains the pending
jobs sequentially, and finally clears the running flag. -/
def RenderQueue.run_sequential (q : RenderQueue)
    (outcome : RenderJob → Except String Unit) (clock : ℚ := 0) :
    Except String (RenderQueue × List String) :=
  if q.running then Except.error "Queue is already running"
  else
    let q1 := { q with running := true, cancelled := false }
    let r := runSequentialAux outcome q1.job_order.length clock q1 []
    Except.ok ({ r.1 with running := false }, r.2)

/-- A job submission payload for `add_job` (caller-supplied id; generated
uuids are modelled as caller-supplied distinct ids). -/
structure JobSpec where
  timeline : Timeline
  output_path : String
  job_id : String
deriving DecidableEq, Repr

/-- Submit a batch of jobs through `add_job` in order. -/
def addJobs (q : RenderQueue) (specs : List JobSpec) :
    Except String RenderQueue :=
  specs.foldlM
    (fun q s => (q.add_job s.timeline s.output_path none (some s.job_id)).map
      (fun p => p.1)) q

/-- Build a queue (default renderer available) from job specs and run it
sequentially; `none` models any raised exception along the way. -/
def seqRunFromSpecs (specs : List JobSpec)
    (outcome : RenderJob → Except String Unit) :
    Option (RenderQueue × List String) :=
  match addJobs { default_renderer := some 0 } specs with
  | Except.error _ => none
  | Except.ok q1 =>
      match q1.run_sequential outcome with
      | Except.error _ => none
      | Except.ok p => some p

/-! ### Concrete instances used by witnesses, counterexamples and
code-bug evaluations -/

/-- A track holding one 10-second video clip. -/
def oneClipTrack : Track :=
  { clips := [{ kind := ClipKind.video, duration := some 10 }] }

/-- A timeline whose only track is disabled (and non-trivial). -/
def tlAllDisabled : Timeline :=
  { tracks := [{ enabled := false,
                 clips := [{ kind := ClipKind.video, duration := some 5 }] }] }

/-- A timeline with one enabled track whose clips all lack a duration. -/
def tlNoDurations : Timeline :=
  { tracks := [{ clips := [{ kind := ClipKind.video }] }] }

/-- A timeline with two enabled tracks ending at 10 and 3 seconds. -/
def tlTwoTracks : Timeline :=
  { tracks := [{ clips := [{ kind := ClipKind.video, start_time := 2,
                             duration := some 8 }] },
               { clips := [{ kind := ClipKind.audio, duration := some 3 }] }] }

/-- A completed render job whose start and completion timestamps coincide
(a recorded duration of exactly zero seconds). -/
def jobZeroDuration : RenderJob :=
  { id := "j", timeline := {}, output_path := "o", renderer := 0,
    status := JobStatus.completed, started_at := some 5,
    completed_at := some 5 }

/-- A queue holding only `jobZeroDuration`. -/
def queueZeroDuration : RenderQueue :=
  { jobs := [("j", jobZeroDuration)], job_order := ["j"] }

/-- Two `add_job` calls with the same caller-supplied id `"a"`. -/
def dupIdResult : Except String (RenderQueue × String) := do
  let p1 ← RenderQueue.add_job { default_renderer := some 0 } {} "out1" none
    (some "a")
  let p2 ← p1.1.add_job {} "out2" none (some "a")
  pure p2

/-- The template produced by `create_simple_text_template` (one required
text placeholder bound at position `(0, 0)` over an empty track). -/
def tmplSimple : VideoTemplate := VideoTemplate.create_simple_text_template "T"

/-- Valid data for `tmplSimple`. -/
def dataHello : List (String × DataValue) := [("title", DataValue.str "Hello")]

/-- A track with two one-second video clips. -/
def trkTwoClips : Track :=
  { clips := [{ kind := ClipKind.video, duration := some 1 },
              { kind := ClipKind.video, start_time := 1, duration := some 1 }] }

/-- A crossfade used in the transition examples. -/
def crossfadeOne : Transition := { kind := TransitionKind.crossfade, duration := 1 }

/-- Three job submissions with distinct ids. -/
def specsThree : List JobSpec := [⟨{}, "o1", "j1"⟩, ⟨{}, "o2", "j2"⟩, ⟨{}, "o3", "j3"⟩]

/-- Five job submissions with distinct ids. -/
def specsFive : List JobSpec :=
  [⟨{}, "o1", "j1"⟩, ⟨{}, "o2", "j2"⟩, ⟨{}, "o3", "j3"⟩, ⟨{}, "o4", "j4"⟩,
   ⟨{}, "o5", "j5"⟩]

/-- A renderer outcome that raises an exception with an empty text
(`str(e) == ""`) on job `"j2"` and succeeds elsewhere. -/
def outcomeEmptyMsg : RenderJob → Except String Unit :=
  fun j => if j.id = "j2" then Except.error "" else Except.ok ()

/-- A renderer outcome that raises `"render exploded"` on job `"j2"` and
succeeds elsewhere. -/
def outcomeFailJ2 : RenderJob → Except String Unit :=
  fun j => if j.id = "j2" then Except.error "render exploded" else Except.ok ()

/-- A renderer outcome that always succeeds. -/
def outcomeOk : RenderJob → Except String Unit := fun _ => Except.ok ()

/-- The job record `add_job` builds for a spec when the queue's default
renderer handle `0` is used and no explicit timestamps are given. -/
def mkJob (s : JobSpec) : RenderJob :=
  { id := s.job_id, timeline := s.timeline, output_path := s.output_path,
    renderer := 0 }

/-- Projection of a raised exception (`Except` carries no decidable
equality, so evaluation theorems compare through this). -/
def exceptErr {ε α : Type} : Except ε α → Option ε
  | Except.error e => some e
  | Except.ok _ => none

/-- An empty Video track. -/
def videoTrack : Track := { track_type := TrackType.video }

/-- A sample audio clip. -/
def audioClipEx : Clip :=
  { kind := ClipKind.audio, duration := some 4, source_path := some "a.wav" }

/-- A sample video clip. -/
def videoClipEx : Clip :=
  { kind := ClipKind.video, duration := some 4, source_path := some "v.mp4" }

/-- The transition-index invariant of the spec: every stored transition
index references an existing clip position that is not the last clip on
the track. -/
def transIndexInvariant (t : Track) : Prop :=
  ∀ p ∈ t.transitions, 0 ≤ p.1 ∧ p.1 < (t.clips.length : Int) - 1

/-! ### Dictionary lemmas and other helpers -/

theorem pyMax_eq_max (a b : ℚ) : pyMax a b = max a b := by
  unfold pyMax
  by_cases h : a < b
  · rw [if_pos (by exact h), max_eq_right h.le]
  · rw [if_neg (by exact h), max_eq_left (not_lt.mp h)]

theorem dictGet_map_set_eq {κ β : Type} [DecidableEq κ] (m : List (κ × β))
    (k : κ) (v : β) :
    dictGet (m.map (fun p => if p.1 = k then (k, v) else p)) k =
      (dictGet m k).map (fun _ => v) := by
  induction m with
  | nil => rfl
  | cons p rest ih =>
      by_cases hp : p.1 = k
      · simp [dictGet, hp]
      · simp [dictGet, hp, ih]

theorem dictGet_map_set_ne {κ β : Type} [DecidableEq κ] (m : List (κ × β))
    (k k' : κ) (v : β) (h : k' ≠ k) :
    dictGet (m.map (fun p => if p.1 = k then (k, v) else p)) k' =
      dictGet m k' := by
  induction m with
  | nil => rfl
  | cons p rest ih =>
      by_cases hp : p.1 = k
      · have hk : ¬ k = k' := fun hh => h hh.symm
        have hp' : ¬ p.1 = k' := by rw [hp]; exact hk
        rw [List.map_cons, if_pos hp]
        simp only [dictGet]
        rw [if_neg hk, if_neg hp', ih]
      · rw [List.map_cons, if_neg hp]
        simp only [dictGet]
        rw [ih]

theorem dictGet_append {κ β : Type} [DecidableEq κ] (m m' : List (κ × β))
    (k : κ) :
    dictGet (m ++ m') k =
      (match dictGet m k with
       | some v => some v
       | none => dictGet m' k) := by
  induction m with
  | nil => simp [dictGet]
  | cons p rest ih =>
      by_cases hp : p.1 = k
      · simp [dictGet, hp]
      · simp [dictGet, hp, ih]

theorem dictGet_isSome_of_any {κ β : Type} [DecidableEq κ] (m : List (κ × β))
    (k : κ) (h : m.any (fun p => p.1 = k) = true) :
    (dictGet m k).isSome = true := by
  induction m with
  | nil => simp at h
  | cons p rest ih =>
      by_cases hp : p.1 = k
      · simp [dictGet, hp]
      · simp only [List.any_cons, Bool.or_eq_true, decide_eq_true_eq] at h
        rcases h with h | h
        · exact absurd h hp
        · simp [dictGet, hp, ih h]

theorem dictGet_eq_none_of_any_false {κ β : Type} [DecidableEq κ]
    (m : List (κ × β)) (k : κ) (h : m.any (fun p => p.1 = k) = false) :
    dictGet m k = none := by
  induction m with
  | nil => rfl
  | cons p rest ih =>
      simp only [List.any_cons, Bool.or_eq_false_iff, decide_eq_false_iff_not] at h
      simp [dictGet, h.1, ih h.2]

theorem dictGet_dictSet_self {κ β : Type} [DecidableEq κ] (m : List (κ × β))
    (k : κ) (v : β) : dictGet (dictSet m k v) k = some v := by
  unfold dictSet
  split
  · rename_i h
    rw [dictGet_map_set_eq]
    have hs := dictGet_isSome_of_any m k h
    cases hm : dictGet m k with
    | none => rw [hm] at hs; simp at hs
    | some w => simp
  · rename_i h
    rw [dictGet_append,
      dictGet_eq_none_of_any_false m k (Bool.eq_false_iff.mpr h)]
    simp [dictGet]

theorem dictGet_dictSet_ne {κ β : Type} [DecidableEq κ] (m : List (κ × β))
    (k k' : κ) (v : β) (h : k' ≠ k) :
    dictGet (dictSet m k v) k' = dictGet m k' := by
  unfold dictSet
  split
  · exact dictGet_map_set_ne m k k' v h
  · rw [dictGet_append]
    have hk : ¬ k = k' := fun hh => h hh.symm
    cases hm : dictGet m k' with
    | none =>
        simp only [dictGet]
        rw [if_neg hk]
    | some w => rfl

theorem keys_map_set {κ β : Type} [DecidableEq κ] (m : List (κ × β))
    (k : κ) (v : β) :
    (m.map (fun p => if p.1 = k then (k, v) else p)).map Prod.fst =
      m.map Prod.fst := by
  induction m with
  | nil => rfl
  | cons p rest ih =>
      by_cases hp : p.1 = k
      · simp only [List.map_cons, if_pos hp, ih]
        rw [← hp]
      · simp only [List.map_cons, if_neg hp, ih]

theorem dictSet_keys_of_any {κ β : Type} [DecidableEq κ] (m : List (κ × β))
    (k : κ) (v : β) (h : m.any (fun p => p.1 = k) = true) :
    (dictSet m k v).map Prod.fst = m.map Prod.fst := by
  unfold dictSet
  rw [if_pos h]
  exact keys_map_set m k v

theorem mem_dictSet {κ β : Type} [DecidableEq κ] {m : List (κ × β)}
    {k : κ} {v : β} {p : κ × β} (h : p ∈ dictSet m k v) :
    p ∈ m ∨ p = (k, v) := by
  unfold dictSet at h
  split at h
  · rcases List.mem_map.mp h with ⟨q, hq, hpq⟩
    by_cases hq1 : q.1 = k
    · rw [if_pos hq1] at hpq
      exact Or.inr hpq.symm
    · rw [if_neg hq1] at hpq
      exact Or.inl (hpq ▸ hq)
  · rcases List.mem_append.mp h with h1 | h1
    · exact Or.inl h1
    · exact Or.inr (by simpa using h1)

theorem dictGet_mem {κ β : Type} [DecidableEq κ] {m : List (κ × β)} {k : κ}
    {v : β} (h : dictGet m k = some v) : (k, v) ∈ m := by
  induction m with
  | nil => simp [dictGet] at h
  | cons p rest ih =>
      by_cases hp : p.1 = k
      · simp only [dictGet, if_pos hp, Option.some.injEq] at h
        have hpkv : p = (k, v) := by rw [← hp, ← h]
        exact hpkv ▸ List.mem_cons_self _ _
      · simp only [dictGet, if_neg hp] at h
        exact List.mem_cons_of_mem _ (ih h)

theorem dictGet_any_of_some {κ β : Type} [DecidableEq κ] {m : List (κ × β)}
    {k : κ} {v : β} (h : dictGet m k = some v) :
    m.any (fun p => p.1 = k) = true := by
  have hm := dictGet_mem h
  simp only [List.any_eq_true, decide_eq_true_eq]
  exact ⟨(k, v), hm, rfl⟩

theorem dictGet_of_mem_nodup {κ β : Type} [DecidableEq κ] {m : List (κ × β)}
    (h : (m.map Prod.fst).Nodup) {p : κ × β} (hp : p ∈ m) :
    dictGet m p.1 = some p.2 := by
  induction m with
  | nil => simp at hp
  | cons q rest ih =>
      simp only [List.map_cons, List.nodup_cons] at h
      rcases List.mem_cons.mp hp with rfl | hp'
      · simp [dictGet]
      · have hne : q.1 ≠ p.1 := by
          intro he
          exact h.1 (he ▸ List.mem_map.mpr ⟨p, hp', rfl⟩)
        simp [dictGet, hne, ih h.2 hp']

/-! ### Claim C8 — `find_clips_at_time` half-open interval semantics -/

/-- C8: `Track.find_clips_at_time(t)` returns exactly the clips (of the
track's clip list) that have a defined duration and satisfy the half-open
condition `start_time <= t < end_time`; clips without a duration are never
returned. -/
theorem find_clips_at_time_mem_iff (t : Track) (time : ℚ) (c : Clip) :
    c ∈ t.find_clips_at_time time ↔
      c ∈ t.clips ∧ ∃ d, c.duration = some d ∧
        c.start_time ≤ time ∧ time < c.start_time + d := by
  unfold Track.find_clips_at_time
  rw [List.mem_filter]
  constructor
  · rintro ⟨hmem, hcond⟩
    refine ⟨hmem, ?_⟩
    cases hd : c.duration with
    | none => rw [hd] at hcond; simp at hcond
    | some d =>
        rw [hd] at hcond
        simp only [Bool.and_eq_true, decide_eq_true_eq] at hcond
        exact ⟨d, rfl, hcond.1, hcond.2⟩
  · rintro ⟨hmem, d, hd, h1, h2⟩
    refine ⟨hmem, ?_⟩
    rw [hd]
    simp [h1, h2]

/-! ### Claim C10 — total index accessors -/

/-- C10: `Track.get_clip` and `Timeline.get_track` are total over all
integer indexes: any negative or too-large index yields `None` (no
exception), and an in-range index yields the stored element. -/
theorem get_clip_get_track_total (t : Track) (tl : Timeline) (i : Int) :
    (i < 0 ∨ (t.clips.length : Int) ≤ i → t.get_clip i = none) ∧
    (0 ≤ i ∧ i < (t.clips.length : Int) →
      t.get_clip i = t.clips.get? i.toNat ∧ (t.clips.get? i.toNat).isSome = true) ∧
    (i < 0 ∨ (tl.tracks.length : Int) ≤ i → tl.get_track i = none) ∧
    (0 ≤ i ∧ i < (tl.tracks.length : Int) →
      tl.get_track i = tl.tracks.get? i.toNat ∧
        (tl.tracks.get? i.toNat).isSome = true) := by
  refine ⟨?_, ?_, ?_, ?_⟩
  · intro h
    unfold Track.get_clip
    rw [if_neg]
    rintro ⟨h1, h2⟩
    rcases h with h | h
    · omega
    · omega
  · rintro ⟨h1, h2⟩
    unfold Track.get_clip
    rw [if_pos ⟨h1, h2⟩]
    refine ⟨rfl, ?_⟩
    rw [List.get?_eq_getElem?]
    simp [List.getElem?_eq_getElem (by omega : i.toNat < t.clips.length)]
  · intro h
    unfold Timeline.get_track
    rw [if_neg]
    rintro ⟨h1, h2⟩
    rcases h with h | h
    · omega
    · omega
  · rintro ⟨h1, h2⟩
    unfold Timeline.get_track
    rw [if_pos ⟨h1, h2⟩]
    refine ⟨rfl, ?_⟩
    rw [List.get?_eq_getElem?]
    simp [List.getElem?_eq_getElem (by omega : i.toNat < tl.tracks.length)]

/-- C10 witness: at index `-1` and at index `1` of a one-clip track /
one-track timeline, both accessors return `None`; at index `0` they return
the stored element. -/
theorem get_clip_get_track_total_witness :
    ((-1 : Int) < 0 ∨ (oneClipTrack.clips.length : Int) ≤ -1) ∧
      oneClipTrack.get_clip (-1) = none := by
  have h : ((-1 : Int) < 0 ∨ (oneClipTrack.clips.length : Int) ≤ -1) := by
    left; decide
  exact ⟨h, (get_clip_get_track_total oneClipTrack {} (-1)).1 h⟩

/-! ### Claim C5 — `Timeline.duration` on disabled / duration-less tracks -/

/-- Claim C5, evaluated where the code diverges from it: a timeline whose
only track is disabled, and a timeline whose enabled track holds only
clips without a duration, both make `Timeline.duration` raise a
`ValueError` (`max()` over an empty sequence, modelled as `none`) where
the claim requires `0.0`; the no-tracks case does return `0.0`, and a
two-track timeline shows the intended max-of-enabled-end-times value. -/
theorem timeline_duration_code_bug :
    tlAllDisabled.duration = none ∧
    tlNoDurations.duration = none ∧
    Timeline.duration {} = some 0 ∧
    tlTwoTracks.duration = some 10 :=
  of_decide_eq_true (by with_unfolding_all rfl)

/-! ### Claim C7 — `get_stats` average over completed jobs -/

/-- Claim C7, evaluated where the code diverges from it: a queue whose
single job is Completed with a recorded duration of exactly zero seconds
reports `completed = 1` yet `avg_duration = None`, because the filter
`j.status == COMPLETED and j.duration` drops the falsy `0.0` duration —
while the claim requires the zero-duration job to count (average `0.0`). -/
theorem get_stats_zero_duration_code_bug :
    jobZeroDuration.status = JobStatus.completed ∧
    jobZeroDuration.duration = some 0 ∧
    queueZeroDuration.get_stats.completed = 1 ∧
    queueZeroDuration.get_stats.avg_duration = none :=
  of_decide_eq_true (by with_unfolding_all rfl)

/-! ### Claim C3 — job-id uniqueness under caller-supplied ids -/

/-- Claim C3, evaluated where the code diverges from it: two `add_job`
calls with the same caller-supplied id `"a"` leave the order list with the
id twice while the map silently replaced the first job (one entry, now
with the second job's output path); a subsequent `remove_job "a"` deletes
the map entry but erases only the first list occurrence, leaving an order
list referencing a job that no longer exists. -/
theorem add_job_duplicate_id_code_bug :
    dupIdResult.toOption.map (fun p => p.1.job_order) = some ["a", "a"] ∧
    dupIdResult.toOption.map (fun p => p.1.jobs.map Prod.fst) = some ["a"] ∧
    dupIdResult.toOption.map (fun p => p.1.jobs.map (fun e => e.2.output_path)) =
      some ["out2"] ∧
    dupIdResult.toOption.map
        (fun p => ((p.1.remove_job "a").1.job_order,
                   (p.1.remove_job "a").1.jobs)) =
      some (["a"], []) :=
  of_decide_eq_true (by with_unfolding_all rfl)

/-! ### Claim C4 — all-or-nothing template fill -/

/-- Claim C4, evaluated where the code diverges from it: for the library's
own `create_simple_text_template` the placeholder is bound at position
`(0, 0)` of an empty track, so `fill({"title": "Hello"})` succeeds without
error yet the returned timeline's track is still empty — the bound
position does not hold the clip `create_clip` produces (a text clip with
`text == "Hello"`); the validation-failure path does raise the single
aggregated error (and, the embedding being pure on the base, leaves the
base timeline untouched). -/
theorem template_fill_code_bug :
    dictGet tmplSimple.placeholder_positions "title" = some (0, 0) ∧
    (tmplSimple.fill dataHello).toOption.map
        (fun tl => tl.tracks.map (fun t => t.clips)) = some [[]] ∧
    ((dictGet tmplSimple.placeholders "title").map
        (fun ph => (ph.create_clip dataHello).toOption.map
          (fun c => c.textContent))) = some (some (some "Hello")) ∧
    exceptErr (tmplSimple.fill []) =
      some "Template validation failed: Missing required placeholder: title" :=
  of_decide_eq_true (by with_unfolding_all rfl)

/-! ### Claim C6 — transition indexes under clip removal -/

/-- Claim C6 counterexample: on a two-clip track with a transition stored
at index 0 (valid when added), removing the clip at index 1 — a position
*after* the transition's index — leaves the transition in place while the
track shrinks to one clip, so the transition's index now references the
last clip: the invariant of the claim is violated. -/
theorem transition_invariant_counterexample :
    transIndexInvariant (trkTwoClips.add_transition 0 crossfadeOne) ∧
    ¬ transIndexInvariant
        ((trkTwoClips.add_transition 0 crossfadeOne).remove_clip 1) := by
  unfold transIndexInvariant
  exact of_decide_eq_true (by with_unfolding_all rfl)

theorem pyInsert_length {α : Type} (xs : List α) (i : Int) (x : α) :
    (pyInsert xs i x).length = xs.length + 1 := by
  unfold pyInsert
  have hk : (if i < 0 then (max 0 ((xs.length : Int) + i)).toNat
             else min i.toNat xs.length) ≤ xs.length := by
    split <;> omega
  simp only [List.length_append, List.length_take, List.length_cons,
    List.length_drop]
  omega

/-- Claim C6 (amended): every transition index is a valid non-last clip
position at the moment `add_transition` stores it, and the invariant is
preserved by `add_transition`, `add_clip` and `remove_transition`;
`remove_clip` removes the transition keyed exactly at the removed clip's
index (no surviving transition carries that key), but it does not adjust
transitions stored at other indexes, so the invariant itself need not
survive a removal at a different position. -/
theorem transition_invariant_amended (t : Track) (h : transIndexInvariant t) :
    (∀ k tr, transIndexInvariant (t.add_transition k tr)) ∧
    (∀ c idx t', t.add_clip c idx = Except.ok t' → transIndexInvariant t') ∧
    (∀ k, transIndexInvariant (t.remove_transition k)) ∧
    (∀ i, ∀ p ∈ (t.remove_clip i).transitions, p.1 ≠ i) := by
  refine ⟨?_, ?_, ?_, ?_⟩
  · intro k tr
    unfold Track.add_transition
    split
    · rename_i hg
      intro p hp
      rcases mem_dictSet hp with hin | rfl
      · exact h p hin
      · exact ⟨hg.1, hg.2⟩
    · exact h
  · intro c idx t' ht'
    unfold Track.add_clip at ht'
    cases hv : t.validate_clip_type c with
    | error e => rw [hv] at ht'; cases ht'
    | ok u =>
        rw [hv] at ht'
        cases idx with
        | none =>
            cases ht'
            intro p hp
            have hh := h p hp
            simp only [List.length_append, List.length_cons, List.length_nil]
            omega
        | some i =>
            cases ht'
            intro p hp
            have hh := h p hp
            rw [pyInsert_length]
            omega
  · intro k p hp
    have hin : p ∈ t.transitions := List.mem_of_mem_filter hp
    exact h p hin
  · intro i p hp
    unfold Track.remove_clip at hp
    split at hp
    · rename_i hg
      have := List.of_mem_filter hp
      simpa using this
    · rename_i hg
      have hh := h p hp
      omega

/-- Claim C6 witness: the amended theorem applied to the concrete two-clip
track — adding the transition at index 0 preserves the invariant. -/
theorem transition_invariant_amended_witness :
    transIndexInvariant trkTwoClips ∧
    transIndexInvariant (trkTwoClips.add_transition 0 crossfadeOne) := by
  have h : transIndexInvariant trkTwoClips := by
    unfold transIndexInvariant; decide
  exact ⟨h, (transition_invariant_amended trkTwoClips h).1 0 crossfadeOne⟩

/-! ### Claim C9 — insertion-time clip-type validation -/

/-- Claim C9: on a Video track, `add_clip` succeeds (appending, or
inserting with Python list semantics) exactly for Video/Image clips and
raises the type-mismatch `ValueError` for every other clip variant — no
updated track is produced, so the clip list is unchanged; and for every
non-Composite track type, any successful insertion implies the clip's
variant lies in that track type's allowed set (the check runs inside
`add_clip`, i.e. at insertion time). -/
theorem add_clip_video_type_check (t : Track) (c : Clip) (idx : Option Int)
    (ht : t.track_type = TrackType.video) :
    (c.kind = ClipKind.video ∨ c.kind = ClipKind.image →
      t.add_clip c idx = Except.ok { t with clips :=
        (match idx with
         | none => t.clips ++ [c]
         | some i => pyInsert t.clips i c) }) ∧
    (c.kind ≠ ClipKind.video ∧ c.kind ≠ ClipKind.image →
      t.add_clip c idx =
        Except.error ("Track type video cannot contain " ++ c.kind.className)) ∧
    (∀ t2 : Track, t2.track_type ≠ TrackType.composite → ∀ t3,
      t2.add_clip c idx = Except.ok t3 →
      c.kind ∈ (valid_types t2.track_type).getD []) := by
  refine ⟨?_, ?_, ?_⟩
  · intro hkind
    have hcontains : ([ClipKind.video, ClipKind.image].contains c.kind) = true := by
      rcases hkind with hk | hk <;> rw [hk] <;> rfl
    have hv : t.validate_clip_type c = Except.ok () := by
      unfold Track.validate_clip_type
      rw [ht, if_neg (by decide : ¬ (TrackType.video = TrackType.composite))]
      simp only [valid_types]
      rw [hcontains, if_pos rfl]
    unfold Track.add_clip
    rw [hv]
    cases idx <;> rfl
  · rintro ⟨hk1, hk2⟩
    have hcontains : ([ClipKind.video, ClipKind.image].contains c.kind) = false := by
      cases hc : c.kind
      · exact absurd hc hk1
      · rfl
      · exact absurd hc hk2
      · rfl
    have hv : t.validate_clip_type c =
        Except.error ("Track type video cannot contain " ++ c.kind.className) := by
      unfold Track.validate_clip_type
      rw [ht, if_neg (by decide : ¬ (TrackType.video = TrackType.composite))]
      simp only [valid_types]
      rw [hcontains, if_neg (by decide : ¬ (false = true))]
      rfl
    unfold Track.add_clip
    rw [hv]
  · intro t2 hcomp t3 hok
    unfold Track.add_clip at hok
    cases hv : t2.validate_clip_type c with
    | error e => rw [hv] at hok; cases hok
    | ok u =>
        unfold Track.validate_clip_type at hv
        rw [if_neg hcomp] at hv
        cases htt : t2.track_type with
        | composite => exact absurd htt hcomp
        | video =>
            rw [htt] at hv
            simp only [valid_types] at hv ⊢
            by_cases hc : ([ClipKind.video, ClipKind.image].contains c.kind) = true
            · exact List.mem_of_elem_eq_true hc
            · rw [if_neg hc] at hv
              exact Except.noConfusion hv
        | audio =>
            rw [htt] at hv
            simp only [valid_types] at hv ⊢
            by_cases hc : ([ClipKind.audio].contains c.kind) = true
            · exact List.mem_of_elem_eq_true hc
            · rw [if_neg hc] at hv
              exact Except.noConfusion hv
        | textTrack =>
            rw [htt] at hv
            simp only [valid_types] at hv ⊢
            by_cases hc : ([ClipKind.textKind].contains c.kind) = true
            · exact List.mem_of_elem_eq_true hc
            · rw [if_neg hc] at hv
              exact Except.noConfusion hv

/-- Claim C9 witness: on the concrete empty Video track, adding an audio
clip raises the type-mismatch error and adding a video clip succeeds. -/
theorem add_clip_video_type_check_witness :
    videoTrack.track_type = TrackType.video ∧
    videoTrack.add_clip audioClipEx none =
      Except.error ("Track type video cannot contain " ++
        ClipKind.className ClipKind.audio) ∧
    videoTrack.add_clip videoClipEx none =
      Except.ok { videoTrack with clips := videoTrack.clips ++ [videoClipEx] } := by
  have ht : videoTrack.track_type = TrackType.video := rfl
  refine ⟨ht, ?_, ?_⟩
  · exact (add_clip_video_type_check videoTrack audioClipEx none ht).2.1
      ⟨by decide, by decide⟩
  · exact (add_clip_video_type_check videoTrack videoClipEx none ht).1
      (Or.inl rfl)

/-! ### Sequential-run machinery (claims C1 and C2) -/

theorem finishJob_id (outcome : RenderJob → Except String Unit) (clock : ℚ)
    (j : RenderJob) : (finishJob outcome clock j).id = j.id := by
  unfold finishJob
  dsimp only
  split <;> rfl

theorem finishJob_finished (outcome : RenderJob → Except String Unit)
    (clock : ℚ) (j : RenderJob) :
    (finishJob outcome clock j).is_finished = true := by
  unfold finishJob RenderJob.is_finished
  dsimp only
  split <;> simp

theorem status_ne_pending_of_finished {j : RenderJob}
    (h : j.is_finished = true) : ¬ j.status = JobStatus.pending := by
  unfold RenderJob.is_finished at h
  rw [decide_eq_true_eq] at h
  rcases h with h | h | h <;> rw [h] <;> decide

theorem findSome?_append_of_none {α β : Type} (f : α → Option β)
    (l1 l2 : List α) (h : l1.findSome? f = none) :
    (l1 ++ l2).findSome? f = l2.findSome? f := by
  induction l1 with
  | nil => rfl
  | cons x xs ih =>
      rw [List.cons_append]
      rw [List.findSome?_cons] at h ⊢
      revert h
      cases f x with
      | some b => intro h; exact Option.noConfusion h
      | none => intro h; exact ih h

theorem pendingProbe_none {jobs : List (String × RenderJob)} {id : String}
    (hj : dictGet jobs id = none) : pendingProbe jobs id = none := by
  unfold pendingProbe
  rw [hj]

theorem pendingProbe_of_finished {jobs : List (String × RenderJob)}
    {id : String} {j : RenderJob} (hj : dictGet jobs id = some j)
    (hfin : j.is_finished = true) : pendingProbe jobs id = none := by
  unfold pendingProbe
  rw [hj]
  show (if j.status = JobStatus.pending then some j else none) = none
  rw [if_neg (status_ne_pending_of_finished hfin)]

theorem pendingProbe_eq_some {jobs : List (String × RenderJob)} {id : String}
    {j : RenderJob} (hj : dictGet jobs id = some j)
    (hp : j.status = JobStatus.pending) : pendingProbe jobs id = some j := by
  unfold pendingProbe
  rw [hj]
  show (if j.status = JobStatus.pending then some j else none) = some j
  rw [if_pos hp]

/-- Invariant-carrying specification of the `_run_sequential` loop: if the
order list splits into already-finished jobs `done` followed by pending
jobs `todo` (unique ids, map entries carrying their own key as id), the
loop processes exactly the `todo` ids in submission order, leaves every
other map entry untouched, and replaces each `todo` entry by the
`finishJob` transform of its pending job at some clock value. -/
theorem runSeqAux_spec (outcome : RenderJob → Except String Unit) :
    ∀ (todo : List String) (fuel : Nat) (clock : ℚ) (q : RenderQueue)
      (trace done : List String),
      todo.length ≤ fuel →
      q.cancelled = false →
      q.job_order = done ++ todo →
      q.job_order.Nodup →
      (∀ p ∈ q.jobs, p.2.id = p.1) →
      (∀ id ∈ done, ∀ j, dictGet q.jobs id = some j → j.is_finished = true) →
      (∀ id ∈ todo, ∃ j, dictGet q.jobs id = some j ∧
        j.status = JobStatus.pending) →
      ∃ q', runSequentialAux outcome fuel clock q trace = (q', trace ++ todo) ∧
        q'.job_order = q.job_order ∧
        q'.running = q.running ∧
        q'.jobs.map Prod.fst = q.jobs.map Prod.fst ∧
        (∀ id, id ∉ todo → dictGet q'.jobs id = dictGet q.jobs id) ∧
        (∀ id ∈ todo, ∃ c j, dictGet q.jobs id = some j ∧
            j.status = JobStatus.pending ∧
            dictGet q'.jobs id = some (finishJob outcome c j)) := by
  intro todo
  induction todo with
  | nil =>
      intro fuel clock q trace done hfuel hcan horder hnd hkeys hdone htodo
      have hnone : q.get_next_pending_job = none := by
        unfold RenderQueue.get_next_pending_job
        rw [List.findSome?_eq_none_iff]
        intro id hid
        rw [horder, List.append_nil] at hid
        cases hj : dictGet q.jobs id with
        | none => exact pendingProbe_none hj
        | some j => exact pendingProbe_of_finished hj (hdone id hid j hj)
      refine ⟨q, ?_, rfl, rfl, rfl, fun id _ => rfl,
        fun id hid => absurd hid (List.not_mem_nil id)⟩
      cases fuel with
      | zero => simp [runSequentialAux]
      | succ f => simp [runSequentialAux, hcan, hnone]
  | cons id rest ih =>
      intro fuel clock q trace done hfuel hcan horder hnd hkeys hdone htodo
      obtain ⟨j0, hj0, hj0p⟩ := htodo id (List.mem_cons_self id rest)
      have hj0id : j0.id = id := hkeys (id, j0) (dictGet_mem hj0)
      rw [horder] at hnd
      rcases List.nodup_append.mp hnd with ⟨hnd_done, hnd_idrest, hdisj⟩
      have hid_not_rest : id ∉ rest := (List.nodup_cons.mp hnd_idrest).1
      have hid_not_done : id ∉ done := fun hin =>
        hdisj hin (List.mem_cons_self id rest)
      have hdnone : done.findSome? (pendingProbe q.jobs) = none := by
        rw [List.findSome?_eq_none_iff]
        intro id' hid'
        cases hj : dictGet q.jobs id' with
        | none => exact pendingProbe_none hj
        | some j => exact pendingProbe_of_finished hj (hdone id' hid' j hj)
      have hnext : q.get_next_pending_job = some j0 := by
        unfold RenderQueue.get_next_pending_job
        rw [horder, findSome?_append_of_none _ _ _ hdnone,
          List.findSome?_cons, pendingProbe_eq_some hj0 hj0p]
      cases fuel with
      | zero => exact absurd hfuel (by simp)
      | succ f =>
          have hstep : runSequentialAux outcome (f + 1) clock q trace =
              runSequentialAux outcome f (clock + 2)
                (q.process_job outcome clock j0) (trace ++ [id]) := by
            simp only [runSequentialAux, hcan, Bool.false_eq_true, if_false,
              hnext, hj0id]
          have hq2jobs : (q.process_job outcome clock j0).jobs =
              dictSet q.jobs id (finishJob outcome clock j0) := by
            unfold RenderQueue.process_job
            rw [hj0id]
          have hany : (q.jobs.any (fun p => p.1 = id)) = true :=
            dictGet_any_of_some hj0
          obtain ⟨q', heq, horder', hrun', hkeys', hframe', hres'⟩ :=
            ih f (clock + 2) (q.process_job outcome clock j0) (trace ++ [id])
              (done ++ [id])
              (by simpa using Nat.le_of_succ_le_succ hfuel)
              (by unfold RenderQueue.process_job; exact hcan)
              (by show q.job_order = (done ++ [id]) ++ rest
                  rw [horder, List.append_assoc]
                  rfl)
              (by unfold RenderQueue.process_job; rw [horder]; exact hnd)
              (by intro p hp
                  rw [hq2jobs] at hp
                  rcases mem_dictSet hp with hin | rfl
                  · exact hkeys p hin
                  · rw [finishJob_id, hj0id])
              (by intro id' hid' j hj
                  rcases List.mem_append.mp hid' with hin | hin
                  · have hne : id' ≠ id := fun he => hid_not_done (he ▸ hin)
                    rw [hq2jobs, dictGet_dictSet_ne _ _ _ _ hne] at hj
                    exact hdone id' hin j hj
                  · have heqid : id' = id := by simpa using hin
                    subst heqid
                    rw [hq2jobs, dictGet_dictSet_self] at hj
                    cases hj
                    exact finishJob_finished outcome clock j0)
              (by intro id' hid'
                  have hne : id' ≠ id := fun he => hid_not_rest (he ▸ hid')
                  obtain ⟨j, hj, hjp⟩ := htodo id' (List.mem_cons_of_mem id hid')
                  refine ⟨j, ?_, hjp⟩
                  rw [hq2jobs, dictGet_dictSet_ne _ _ _ _ hne]
                  exact hj)
          refine ⟨q', ?_, ?_, ?_, ?_, ?_, ?_⟩
          · rw [hstep, heq, List.append_assoc]
            rfl
          · rw [horder']
            rfl
          · rw [hrun']
            rfl
          · rw [hkeys', hq2jobs, dictSet_keys_of_any _ _ _ hany]
          · intro id' hnotin
            have hne : id' ≠ id := fun he => hnotin (he ▸ List.mem_cons_self id rest)
            have hnr : id' ∉ rest := fun hr => hnotin (List.mem_cons_of_mem id hr)
            rw [hframe' id' hnr, hq2jobs, dictGet_dictSet_ne _ _ _ _ hne]
          · intro id' hid'
            rcases List.mem_cons.mp hid' with rfl | hin
            · refine ⟨clock, j0, hj0, hj0p, ?_⟩
              rw [hframe' id' hid_not_rest, hq2jobs, dictGet_dictSet_self]
            · obtain ⟨c, j, hq2get, hjp, hq'get⟩ := hres' id' hin
              have hne : id' ≠ id := fun he => hid_not_rest (he ▸ hin)
              rw [hq2jobs, dictGet_dictSet_ne _ _ _ _ hne] at hq2get
              exact ⟨c, j, hq2get, hjp, hq'get⟩

/-- `run(QueueMode.SEQUENTIAL)` on a non-running queue of all-Pending jobs
with unique ids: it returns normally (no renderer exception escapes), the
renderer-call trace is exactly the submission order, and every job's map
entry becomes the `finishJob` transform of its pending record. -/
theorem run_sequential_spec (q : RenderQueue)
    (outcome : RenderJob → Except String Unit) (clock : ℚ)
    (hrun : q.running = false)
    (hnd : q.job_order.Nodup)
    (hkeys : ∀ p ∈ q.jobs, p.2.id = p.1)
    (hpend : ∀ id ∈ q.job_order, ∃ j, dictGet q.jobs id = some j ∧
      j.status = JobStatus.pending) :
    ∃ q', q.run_sequential outcome clock = Except.ok (q', q.job_order) ∧
      q'.job_order = q.job_order ∧
      q'.running = false ∧
      q'.jobs.map Prod.fst = q.jobs.map Prod.fst ∧
      (∀ id ∈ q.job_order, ∃ c j, dictGet q.jobs id = some j ∧
          j.status = JobStatus.pending ∧
          dictGet q'.jobs id = some (finishJob outcome c j)) := by
  obtain ⟨q1, heq, horder1, hrun1, hkeys1, hframe1, hres1⟩ :=
    runSeqAux_spec outcome q.job_order q.job_order.length clock
      { q with running := true, cancelled := false } [] []
      (le_refl _) rfl rfl hnd hkeys (fun id hid => absurd hid (List.not_mem_nil id))
      hpend
  refine ⟨{ q1 with running := false }, ?_, horder1, rfl, hkeys1, ?_⟩
  · unfold RenderQueue.run_sequential
    rw [if_neg (by rw [hrun]; exact Bool.false_ne_true)]
    dsimp only
    rw [heq]
    simp
  · intro id hid
    exact hres1 id hid

/-- `add_job` over a batch of specs with fresh, pairwise-distinct
caller-supplied ids, against a queue whose default renderer is handle 0:
each call succeeds and appends one map entry and one order entry. -/
theorem addJobs_app (q : RenderQueue) (hq : q.default_renderer = some 0)
    (specs : List JobSpec)
    (hfresh : ∀ s ∈ specs, (q.jobs.any (fun p => p.1 = s.job_id)) = false)
    (hnd : (specs.map (fun s => s.job_id)).Nodup) :
    addJobs q specs = Except.ok
      { q with jobs := q.jobs ++ specs.map (fun s => (s.job_id, mkJob s)),
               job_order := q.job_order ++ specs.map (fun s => s.job_id) } := by
  induction specs generalizing q with
  | nil =>
      show Except.ok q = _
      rw [List.map_nil, List.map_nil, List.append_nil, List.append_nil]
  | cons s rest ih =>
      have hstep : (q.add_job s.timeline s.output_path none (some s.job_id)).map
          (fun p => p.1) = Except.ok
            { q with jobs := q.jobs ++ [(s.job_id, mkJob s)],
                     job_order := q.job_order ++ [s.job_id] } := by
        unfold RenderQueue.add_job
        rw [hq]
        dsimp only
        unfold dictSet
        rw [hfresh s (List.mem_cons_self s rest)]
        rfl
      have hfresh2 : ∀ s' ∈ rest,
          ((q.jobs ++ [(s.job_id, mkJob s)]).any
            (fun p => p.1 = s'.job_id)) = false := by
        intro s' hs'
        rw [List.any_append]
        have h1 := hfresh s' (List.mem_cons_of_mem s hs')
        have h2 : s.job_id ≠ s'.job_id := by
          have hnotin := (List.nodup_cons.mp hnd).1
          intro he
          exact hnotin (List.mem_map.mpr ⟨s', hs', he.symm⟩)
        rw [h1]
        simp [h2]
      have hnd2 : (rest.map (fun s => s.job_id)).Nodup :=
        (List.nodup_cons.mp hnd).2
      have hrec := ih { q with jobs := q.jobs ++ [(s.job_id, mkJob s)],
                               job_order := q.job_order ++ [s.job_id] }
        hq hfresh2 hnd2
      unfold addJobs at hrec ⊢
      rw [List.foldlM_cons]
      rw [hstep]
      show List.foldlM _ _ rest = _
      rw [hrec]
      simp

theorem finishJob_status_ok (outcome : RenderJob → Except String Unit)
    (clock : ℚ) (j : RenderJob)
    (h : outcome { j with status := JobStatus.running,
                          started_at := some clock } = Except.ok ()) :
    (finishJob outcome clock j).status = JobStatus.completed := by
  unfold finishJob
  dsimp only
  rw [h]

theorem finishJob_status_error (outcome : RenderJob → Except String Unit)
    (clock : ℚ) (j : RenderJob) (e : String)
    (h : outcome { j with status := JobStatus.running,
                          started_at := some clock } = Except.error e) :
    (finishJob outcome clock j).status = JobStatus.failed ∧
    (finishJob outcome clock j).error_message = some e := by
  unfold finishJob
  dsimp only
  rw [h]
  exact ⟨rfl, rfl⟩

/-- End-to-end specification of submitting a batch of distinct-id job
specs to a fresh queue and running it sequentially: the run returns (so no
renderer exception propagated), the renderer-call trace equals the
submission order, the job table keeps exactly the submitted ids, and each
id's entry is the `finishJob` transform (at some clock) of its pending
job. -/
theorem seqRunFromSpecs_spec (specs : List JobSpec)
    (hnd : (specs.map (fun s => s.job_id)).Nodup)
    (outcome : RenderJob → Except String Unit) :
    match seqRunFromSpecs specs outcome with
    | none => False
    | some pr =>
        pr.2 = specs.map (fun s => s.job_id) ∧
        pr.1.job_order = specs.map (fun s => s.job_id) ∧
        pr.1.jobs.map Prod.fst = specs.map (fun s => s.job_id) ∧
        (∀ id ∈ specs.map (fun s => s.job_id), ∃ c sp, sp ∈ specs ∧
            sp.job_id = id ∧
            dictGet pr.1.jobs id = some (finishJob outcome c (mkJob sp))) := by
  have hadd := addJobs_app { default_renderer := some 0 } rfl specs
    (fun s _ => rfl) hnd
  have hadd' : addJobs { default_renderer := some 0 } specs = Except.ok
      { default_renderer := some 0,
        jobs := specs.map (fun s => (s.job_id, mkJob s)),
        job_order := specs.map (fun s => s.job_id) } := hadd
  have hq1keys : ((specs.map (fun s => (s.job_id, mkJob s))).map
      Prod.fst).Nodup := by
    rw [List.map_map]
    exact hnd
  have hget1 : ∀ sp ∈ specs, dictGet
      (specs.map (fun s => (s.job_id, mkJob s))) sp.job_id =
      some (mkJob sp) := by
    intro sp hsp
    exact dictGet_of_mem_nodup hq1keys (List.mem_map.mpr ⟨sp, hsp, rfl⟩)
  obtain ⟨q', hrunq, horder', hrun', hkeys', hres'⟩ :=
    run_sequential_spec
      { default_renderer := some 0,
        jobs := specs.map (fun s => (s.job_id, mkJob s)),
        job_order := specs.map (fun s => s.job_id) }
      outcome 0 rfl hnd
      (by intro p hp
          rcases List.mem_map.mp hp with ⟨sp, hsp, rfl⟩
          rfl)
      (by intro id hid
          rcases List.mem_map.mp hid with ⟨sp, hsp, rfl⟩
          exact ⟨mkJob sp, hget1 sp hsp, rfl⟩)
  unfold seqRunFromSpecs
  rw [hadd']
  dsimp only
  rw [hrunq]
  dsimp only
  refine ⟨rfl, horder', ?_, ?_⟩
  · rw [hkeys', List.map_map]
    rfl
  · intro id hid
    rcases List.mem_map.mp hid with ⟨sp, hsp, rfl⟩
    obtain ⟨c, j, hj, hjp, hj'⟩ := hres' sp.job_id
      (List.mem_map.mpr ⟨sp, hsp, rfl⟩)
    have hjj : j = mkJob sp := by
      have := (hget1 sp hsp).symm.trans hj
      injection this with h
      exact h.symm
    exact ⟨c, sp, hsp, rfl, by rw [hj', hjj]⟩

/-- Claim C2: for every batch of jobs submitted via `add_job` (distinct
ids) and a renderer that always succeeds, `run(Sequential)` processes the
jobs in exact submission order (the renderer-call trace equals the
submission order), leaves every job Completed, and `get_stats` reports
`completed` (and `total_jobs`) equal to the number of submitted jobs. -/
theorem sequential_run_completes_in_order (specs : List JobSpec)
    (hnd : (specs.map (fun s => s.job_id)).Nodup)
    (outcome : RenderJob → Except String Unit)
    (hok : ∀ j, outcome j = Except.ok ()) :
    match seqRunFromSpecs specs outcome with
    | none => False
    | some pr =>
        pr.2 = specs.map (fun s => s.job_id) ∧
        (∀ id ∈ specs.map (fun s => s.job_id),
          (dictGet pr.1.jobs id).map RenderJob.status =
            some JobStatus.completed) ∧
        pr.1.get_stats.completed = specs.length ∧
        pr.1.get_stats.total_jobs = specs.length := by
  have hspec := seqRunFromSpecs_spec specs hnd outcome
  cases hrun : seqRunFromSpecs specs outcome with
  | none => rw [hrun] at hspec; exact hspec
  | some pr =>
      rw [hrun] at hspec
      obtain ⟨htrace, horder, hkeys, hres⟩ := hspec
      have hnodup' : (pr.1.jobs.map Prod.fst).Nodup := by
        rw [hkeys]; exact hnd
      have hall : ∀ p ∈ pr.1.jobs, p.2.status = JobStatus.completed := by
        intro p hp
        have hpkey : p.1 ∈ specs.map (fun s => s.job_id) := by
          rw [← hkeys]
          exact List.mem_map.mpr ⟨p, hp, rfl⟩
        obtain ⟨c, sp, hsp, hspid, hj'⟩ := hres p.1 hpkey
        have hself := dictGet_of_mem_nodup hnodup' hp
        rw [hself] at hj'
        injection hj' with h2
        rw [h2]
        exact finishJob_status_ok outcome c (mkJob sp) (hok _)
      have hlen : pr.1.jobs.length = specs.length := by
        have := congrArg List.length hkeys
        simpa using this
      refine ⟨htrace, ?_, ?_, ?_⟩
      · intro id hid
        obtain ⟨c, sp, hsp, hspid, hj'⟩ := hres id hid
        rw [hj']
        show some ((finishJob outcome c (mkJob sp)).status) =
          some JobStatus.completed
        rw [finishJob_status_ok outcome c (mkJob sp) (hok _)]
      · show (pr.1.jobs.map (fun p => p.2)).countP
          (fun j => decide (j.status = JobStatus.completed)) = specs.length
        have h1 := List.countP_eq_length
          (p := fun j => decide (j.status = JobStatus.completed))
          (l := pr.1.jobs.map (fun p => p.2))
        rw [h1.mpr ?_, List.length_map, hlen]
        intro j hj
        rcases List.mem_map.mp hj with ⟨p, hp, rfl⟩
        exact decide_eq_true (hall p hp)
      · show (pr.1.jobs.map (fun p => p.2)).length = specs.length
        rw [List.length_map, hlen]

/-- Claim C1 (amended): for every batch of jobs with distinct ids and a
renderer that raises (with error text `msg`) exactly on the job `failId`
and succeeds elsewhere, the sequential run returns normally — the
exception never propagates out of `_process_job` — with the failing job
Failed and `error_message` set to the error's text (hence non-empty
whenever the text is non-empty), while every other job reaches
Completed. -/
theorem sequential_failure_isolation (specs : List JobSpec)
    (hnd : (specs.map (fun s => s.job_id)).Nodup)
    (failId msg : String)
    (outcome : RenderJob → Except String Unit)
    (hfail : ∀ j : RenderJob, j.id = failId → outcome j = Except.error msg)
    (hok : ∀ j : RenderJob, j.id ≠ failId → outcome j = Except.ok ()) :
    match seqRunFromSpecs specs outcome with
    | none => False
    | some pr =>
        (∀ id ∈ specs.map (fun s => s.job_id), id ≠ failId →
          (dictGet pr.1.jobs id).map RenderJob.status =
            some JobStatus.completed) ∧
        (failId ∈ specs.map (fun s => s.job_id) →
          (dictGet pr.1.jobs failId).map RenderJob.status =
            some JobStatus.failed ∧
          (dictGet pr.1.jobs failId).bind RenderJob.error_message =
            some msg) := by
  have hspec := seqRunFromSpecs_spec specs hnd outcome
  cases hrun : seqRunFromSpecs specs outcome with
  | none => rw [hrun] at hspec; exact hspec
  | some pr =>
      rw [hrun] at hspec
      obtain ⟨htrace, horder, hkeys, hres⟩ := hspec
      refine ⟨?_, ?_⟩
      · intro id hid hne
        obtain ⟨c, sp, hsp, hspid, hj'⟩ := hres id hid
        rw [hj']
        show some ((finishJob outcome c (mkJob sp)).status) =
          some JobStatus.completed
        rw [finishJob_status_ok outcome c (mkJob sp) (hok _ (by
          show (mkJob sp).id ≠ failId
          rw [show (mkJob sp).id = sp.job_id from rfl, hspid]
          exact hne))]
      · intro hmem
        obtain ⟨c, sp, hsp, hspid, hj'⟩ := hres failId hmem
        have herr := finishJob_status_error outcome c (mkJob sp) msg
          (hfail _ (by
            show (mkJob sp).id = failId
            rw [show (mkJob sp).id = sp.job_id from rfl, hspid]))
        constructor
        · rw [hj']
          show some ((finishJob outcome c (mkJob sp)).status) =
            some JobStatus.failed
          rw [herr.1]
        · rw [hj']
          show (finishJob outcome c (mkJob sp)).error_message = some msg
          rw [herr.2]

/-- Claim C1 witness: the isolation theorem applied to three concrete jobs
with a renderer failing on `"j2"` with text `"render exploded"`. -/
theorem sequential_failure_isolation_witness :
    match seqRunFromSpecs specsThree outcomeFailJ2 with
    | none => False
    | some pr =>
        (∀ id ∈ specsThree.map (fun s => s.job_id), id ≠ "j2" →
          (dictGet pr.1.jobs id).map RenderJob.status =
            some JobStatus.completed) ∧
        ("j2" ∈ specsThree.map (fun s => s.job_id) →
          (dictGet pr.1.jobs "j2").map RenderJob.status =
            some JobStatus.failed ∧
          (dictGet pr.1.jobs "j2").bind RenderJob.error_message =
            some "render exploded") :=
  sequential_failure_isolation specsThree (by decide) "j2" "render exploded"
    outcomeFailJ2
    (fun j h => by unfold outcomeFailJ2; rw [h, if_pos rfl])
    (fun j h => by unfold outcomeFailJ2; rw [if_neg h])

/-- Claim C1 counterexample: with a renderer whose raised exception
carries empty text (`str(e) == ""`) on the second of three jobs, the
failing job ends Failed with `error_message` set to the *empty* string —
refuting the claim's "non-empty error_message" — while the isolation
itself holds (jobs 1 and 3 Completed, nothing propagates). -/
theorem sequential_empty_error_message_counterexample :
    (seqRunFromSpecs specsThree outcomeEmptyMsg).map
        (fun pr => pr.1.jobs.map
          (fun e => (e.1, e.2.status, e.2.error_message))) =
      some [("j1", JobStatus.completed, none),
            ("j2", JobStatus.failed, some ""),
            ("j3", JobStatus.completed, none)] :=
  of_decide_eq_true (by with_unfolding_all rfl)

/-- Claim C2 witness: the ordering/completion theorem applied to five
concrete jobs with the always-succeeding renderer. -/
theorem sequential_run_completes_in_order_witness :
    match seqRunFromSpecs specsFive outcomeOk with
    | none => False
    | some pr =>
        pr.2 = specsFive.map (fun s => s.job_id) ∧
        (∀ id ∈ specsFive.map (fun s => s.job_id),
          (dictGet pr.1.jobs id).map RenderJob.status =
            some JobStatus.completed) ∧
        pr.1.get_stats.completed = specsFive.length ∧
        pr.1.get_stats.total_jobs = specsFive.length :=
  sequential_run_completes_in_order specsFive (by decide) outcomeOk
    (fun _ => rfl)

end Aive
